import Mathlib

/-!
Verification development for the `ScreenRecordingService` of the
screen-capture-poc repository (src/unnamed/part_000) and its presentational
caller (src/src/app/app.ts).

The service is a thin event-driven controller over the browser's
`getDisplayMedia` / `MediaRecorder` primitives.  We embed it shallowly:

* the mutable fields of the service class become the fields of `Svc`;
* each method body becomes a pure state-transformer;
* the browser-delivered callbacks (data available, recorder stopped, track
  ended, interval tick) and the user-invoked methods become events of `Ev`,
  with `step` dispatching exactly the code each event runs;
* JavaScript numbers holding `Date.now()` values are embedded as `Int`,
  `Math.floor(a / b)` as `Int.fdiv`, and the `%` remainder operator (sign of
  the dividend) as `Int.tmod`;
* `setInterval` / `clearInterval` are embedded with an allocation counter:
  `setInterval` appends a fresh id to the list of live intervals and stores it
  in the `durationTimer` handle field, `clearInterval` removes the cleared id;
* `Blob`s are embedded as `List Nat` byte sequences; `new Blob(chunks, ...)`
  concatenates.
-/

/-- One digit character, as produced by JavaScript number-to-string
conversion for the digits 0–9. -/
def digitChar : Nat → Char
  | 0 => '0'
  | 1 => '1'
  | 2 => '2'
  | 3 => '3'
  | 4 => '4'
  | 5 => '5'
  | 6 => '6'
  | 7 => '7'
  | 8 => '8'
  | 9 => '9'
  | _ => '*'

/-- Decimal digit characters of `n`, most significant first.  The first
argument is recursion fuel; `n + 1` units always suffice. -/
def natChars : Nat → Nat → List Char
  | 0, _ => []
  | fuel + 1, n =>
    if n < 10 then [digitChar n]
    else natChars fuel (n / 10) ++ [digitChar (n % 10)]

/-- Decimal rendering of a natural number (JavaScript `Number.toString` on a
non-negative integer value). -/
def natStr (n : Nat) : String :=
  String.mk (natChars (n + 1) n)

/-- JavaScript `Number.toString` on an integer value: a minus sign followed by
the decimal digits when negative. -/
def intStr (n : Int) : String :=
  if n < 0 then "-" ++ natStr n.natAbs else natStr n.toNat

/-- JavaScript `String.prototype.padStart(n, c)` for a single pad character:
prepend copies of `c` until the length is at least `n`. -/
def padStart (s : String) (n : Nat) (c : Char) : String :=
  String.mk (List.replicate (n - s.length) c) ++ s

/-- Embedding of `formatDuration` from `ScreenRecordingService` over `Int` with
JavaScript arithmetic: `Math.floor(seconds / 3600)` is `Int.fdiv`,
`seconds % 3600` is the truncated remainder `Int.tmod`. -/
def formatDuration (seconds : Int) : String :=
  let hours := Int.fdiv seconds 3600
  let minutes := Int.fdiv (Int.tmod seconds 3600) 60
  let secs := Int.tmod seconds 60
  if hours > 0 then
    padStart (intStr hours) 2 '0' ++ ":" ++ padStart (intStr minutes) 2 '0' ++
      ":" ++ padStart (intStr secs) 2 '0'
  else
    padStart (intStr minutes) 2 '0' ++ ":" ++ padStart (intStr secs) 2 '0'

/-- Duration formatting as the specification words it: zero-padded
`HH:MM:SS` when the hour component `s / 3600` is nonzero, else zero-padded
`MM:SS`, with minutes `s / 60 % 60` and seconds `s % 60`. -/
def specFormatDuration (s : Nat) : String :=
  if s / 3600 ≠ 0 then
    padStart (natStr (s / 3600)) 2 '0' ++ ":" ++ padStart (natStr (s / 60 % 60)) 2 '0' ++
      ":" ++ padStart (natStr (s % 60)) 2 '0'
  else
    padStart (natStr (s / 60 % 60)) 2 '0' ++ ":" ++ padStart (natStr (s % 60)) 2 '0'

/-- The state attribute of the `MediaRecorder` held in the service's field.
`stopping` is a recorder on which `stop()` has been called but whose final
`dataavailable`/`onstop` events have not yet been delivered; its `state`
attribute already reads `"inactive"`. -/
inductive MRState where
  | recording
  | paused
  | stopping
deriving DecidableEq

/-- The string the `state` attribute of the recorder evaluates to. -/
def MRState.attr : MRState → String
  | .recording => "recording"
  | .paused => "paused"
  | .stopping => "inactive"

/-- The mutable fields of `ScreenRecordingService`.  `stream = some true`
means the stream field holds a `MediaStream` whose tracks are live.
`activeTimers` lists the ids of all intervals created by `setInterval` and
not yet cleared; `durationTimer` is the handle field of the class. -/
structure Svc where
  mediaRecorder : Option MRState
  recordedChunks : List (List Nat)
  stream : Option Bool
  startTime : Int
  pausedTime : Int
  nextTimer : Nat
  activeTimers : List Nat
  durationTimer : Option Nat
  isRecording : Bool
  isPaused : Bool
  duration : Int
  error : Option String
deriving DecidableEq

/-- Field initialisers of the service class. -/
def initSvc : Svc :=
  { mediaRecorder := none
    recordedChunks := []
    stream := none
    startTime := 0
    pausedTime := 0
    nextTimer := 0
    activeTimers := []
    durationTimer := none
    isRecording := false
    isPaused := false
    duration := 0
    error := none }

/-- The localized message assigned to the error signal in the catch block of
`startRecording`. -/
def startErrorMsg : String :=
  "Fehler beim Starten der Aufnahme. Bitte stellen Sie sicher, dass Sie die Berechtigung erteilt haben."

/-- The value of `this.mediaRecorder.state` as read by the guards (`none`
when the field is null). -/
def recState (s : Svc) : Option String :=
  s.mediaRecorder.map MRState.attr

/-- Embedding of `startDurationTimer`: `this.durationTimer = setInterval(...)` — a fresh
interval id is allocated and the handle field is overwritten (the previous
interval, if any, is NOT cleared). -/
def startDurationTimer (s : Svc) : Svc :=
  { s with
    activeTimers := s.activeTimers ++ [s.nextTimer]
    durationTimer := some s.nextTimer
    nextTimer := s.nextTimer + 1 }

/-- Embedding of `stopDurationTimer`: if the handle field is set, `clearInterval` it and
null the field. -/
def stopDurationTimer (s : Svc) : Svc :=
  match s.durationTimer with
  | some id =>
    { s with activeTimers := s.activeTimers.erase id, durationTimer := none }
  | none => s

/-- The interval callback of `startDurationTimer`, run at wall-clock time
`t`: `this._duration.set(Math.floor((Date.now() - this.startTime) / 1000))`. -/
def onTick (t : Int) (s : Svc) : Svc :=
  { s with duration := Int.fdiv (t - s.startTime) 1000 }

/-- The successful path of `startRecording`, with `Date.now() = t` at the
point `this.startTime` is assigned: stream acquired, recorder constructed and
started (state `recording`), chunk buffer reset, signals published, duration
timer started. -/
def startRecordingOk (t : Int) (s : Svc) : Svc :=
  startDurationTimer
    { s with
      stream := some true
      mediaRecorder := some MRState.recording
      recordedChunks := []
      startTime := t
      pausedTime := 0
      isRecording := true
      isPaused := false
      duration := 0
      error := none }

/-- The failure path of `startRecording` in which `getDisplayMedia` itself
throws (permission denied): no field assignment before the throw executed, the
catch block publishes the error and resets the four signals. -/
def startRecordingAcqFail (s : Svc) : Svc :=
  { s with
    isRecording := false
    isPaused := false
    duration := 0
    error := some startErrorMsg }

/-- The failure path of `startRecording` in which `getDisplayMedia` succeeded
(so `this.stream` was assigned a live stream) but the `MediaRecorder`
constructor throws: the catch block publishes the error and resets the four
signals, and nothing releases the acquired stream. -/
def startRecordingCtorFail (s : Svc) : Svc :=
  { s with
    stream := some true
    isRecording := false
    isPaused := false
    duration := 0
    error := some startErrorMsg }

/-- Embedding of `pauseRecording`, with `Date.now() = t`. -/
def pauseRecording (t : Int) (s : Svc) : Svc :=
  if recState s = some "recording" then
    let s1 := stopDurationTimer
      { s with mediaRecorder := some MRState.paused, pausedTime := t }
    { s1 with isPaused := true }
  else s

/-- Embedding of `resumeRecording`, with `Date.now() = t`:
`this.startTime += Date.now() - this.pausedTime`. -/
def resumeRecording (t : Int) (s : Svc) : Svc :=
  if recState s = some "paused" then
    let s1 := startDurationTimer
      { s with
        mediaRecorder := some MRState.recording
        startTime := s.startTime + (t - s.pausedTime) }
    { s1 with isPaused := false }
  else s

/-- Embedding of `stopRecording`: guard `this.mediaRecorder && state !== 'inactive'`; the
recorder enters its stopping phase (its `state` attribute now reads
`"inactive"`, final events pending) and the ticker is cleared. -/
def stopRecording (s : Svc) : Svc :=
  match s.mediaRecorder with
  | some r =>
    if r.attr ≠ "inactive" then
      stopDurationTimer { s with mediaRecorder := some MRState.stopping }
    else s
  | none => s

/-- The `ondataavailable` handler: a non-empty data segment is pushed onto
`recordedChunks`; a zero-size segment is skipped. -/
def onDataAvailable (bytes : List Nat) (s : Svc) : Svc :=
  if bytes.length > 0 then
    { s with recordedChunks := s.recordedChunks ++ [bytes] }
  else s

/-- A wall-clock date-time, the relevant fields of the `Date` constructed at
finalization time. -/
structure DateTime where
  year : Nat
  month : Nat
  day : Nat
  hour : Nat
  minute : Nat
  second : Nat
deriving DecidableEq

/-- The first 19 characters of `Date.prototype.toISOString()`:
`YYYY-MM-DDTHH:MM:SS`, each numeric field zero-padded (the year to four
digits, the others to two). -/
def isoSlice19 (d : DateTime) : String :=
  padStart (natStr d.year) 4 '0' ++ "-" ++ padStart (natStr d.month) 2 '0' ++ "-" ++
    padStart (natStr d.day) 2 '0' ++ "T" ++ padStart (natStr d.hour) 2 '0' ++ ":" ++
    padStart (natStr d.minute) 2 '0' ++ ":" ++ padStart (natStr d.second) 2 '0'

/-- The character substitution applied by `.replace(/:/g, '-')`. -/
def colonToDash (c : Char) : Char :=
  if c = ':' then '-' else c

/-- Embedding of `.replace(/:/g, '-')`: every colon character becomes a dash. -/
def replaceColonsDash (s : String) : String :=
  String.mk (s.data.map colonToDash)

/-- The download file name built in `downloadRecording` at finalization
wall-clock time `d`. -/
def downloadName (d : DateTime) : String :=
  "screen-recording-" ++ replaceColonsDash (isoSlice19 d) ++ ".webm"

/-- The file offered for download: the blob's bytes, its MIME type and the
anchor's download name. -/
structure FileExport where
  bytes : List Nat
  mime : String
  name : String
deriving DecidableEq

/-- Embedding of `downloadRecording` at finalization wall-clock time `d`: with an
empty chunk buffer it warns and returns early producing no file; otherwise
the produced blob is the concatenation of all buffered chunks with MIME type
`video/webm`. -/
def downloadRecording (d : DateTime) (s : Svc) : Option FileExport :=
  if s.recordedChunks = [] then none
  else
    some
      { bytes := s.recordedChunks.flatten
        mime := "video/webm"
        name := downloadName d }

/-- Embedding of `cleanup`: stop all stream tracks and null the stream, null the recorder,
clear the chunk buffer, stop the duration timer and reset the four published
signals to their Idle defaults. -/
def cleanup (s : Svc) : Svc :=
  let s1 := stopDurationTimer
    { s with stream := none, mediaRecorder := none, recordedChunks := [] }
  { s1 with isRecording := false, isPaused := false, duration := 0, error := none }

/-- The `onstop` handler: `downloadRecording()` then `cleanup()`; the first
component is the file produced (if any), the second the resulting state. -/
def finalize (d : DateTime) (s : Svc) : Option FileExport × Svc :=
  (downloadRecording d s, cleanup s)

/-- The events the service reacts to: the three user commands (with the two
distinct failure points of `startRecording`), the recorder's `dataavailable`
and `stop` events, the video track's `ended` event, and an interval tick.
Events carrying an `Int` carry the value of `Date.now()` at delivery. -/
inductive Ev where
  | startOk (t : Int)
  | startAcqFail
  | startCtorFail
  | pause (t : Int)
  | resume (t : Int)
  | stop
  | dataAvail (bytes : List Nat)
  | recStop (d : DateTime)
  | ended
  | tick (t : Int)
deriving DecidableEq

/-- Event dispatch: exactly the code the service runs on each event.  The
`ended` handler installed in `startRecording` is literally
`() => this.stopRecording()`. -/
def step (s : Svc) : Ev → Svc
  | .startOk t => startRecordingOk t s
  | .startAcqFail => startRecordingAcqFail s
  | .startCtorFail => startRecordingCtorFail s
  | .pause t => pauseRecording t s
  | .resume t => resumeRecording t s
  | .stop => stopRecording s
  | .dataAvail bytes => onDataAvailable bytes s
  | .recStop d => (finalize d s).2
  | .ended => stopRecording s
  | .tick t => onTick t s

/-- Which events the environment can deliver in a given state: user commands
are always possible; `dataavailable` fires only from a recorder that is
recording or flushing after `stop()`; `onstop` only from a stopping recorder;
the track `ended` event only while a live stream is held; a tick only while
at least one interval is live. -/
def validB (s : Svc) : Ev → Bool
  | .startOk _ => true
  | .startAcqFail => true
  | .startCtorFail => true
  | .pause _ => true
  | .resume _ => true
  | .stop => true
  | .dataAvail _ =>
    s.mediaRecorder == some MRState.recording || s.mediaRecorder == some MRState.stopping
  | .recStop _ => s.mediaRecorder == some MRState.stopping
  | .ended => s.stream == some true
  | .tick _ => !s.activeTimers.isEmpty

/-- Validity restricted to non-re-entrant use: `startRecording` is invoked
only while no recorder is held. -/
def validNRB (s : Svc) (e : Ev) : Bool :=
  validB s e &&
    match e with
    | .startOk _ => s.mediaRecorder == none
    | .startAcqFail => s.mediaRecorder == none
    | .startCtorFail => s.mediaRecorder == none
    | _ => true

/-- States reachable by any sequence of deliverable events. -/
inductive Reach : Svc → Prop
  | init : Reach initSvc
  | step {s : Svc} {e : Ev} : Reach s → validB s e = true → Reach (step s e)

/-- States reachable without re-entrant `startRecording` calls. -/
inductive ReachNR : Svc → Prop
  | init : ReachNR initSvc
  | step {s : Svc} {e : Ev} : ReachNR s → validNRB s e = true → ReachNR (step s e)

/-- Run a list of events from a state. -/
def runSvc (s : Svc) : List Ev → Svc
  | [] => s
  | e :: es => runSvc (step s e) es

/-- Ghost accounting state for the duration claim, written from the
specification's words: `recording` is whether the session is currently in the
Recording phase, `lastT` the wall-clock time of the last processed event, and
`acc` the total wall-clock milliseconds spent strictly in the Recording phase
up to `lastT` (Paused intervals excluded). -/
structure GS where
  recording : Bool
  lastT : Int
  acc : Int
deriving DecidableEq

/-- Ghost transition: pauses are valid only while Recording, resumes only
while Paused, ticks only while Recording, and event times never decrease.
While Recording, the interval since the previous event counts towards `acc`. -/
def gstep (g : GS) : Ev → Option GS
  | .pause t =>
    if g.recording = true ∧ g.lastT ≤ t then
      some { recording := false, lastT := t, acc := g.acc + (t - g.lastT) }
    else none
  | .resume t =>
    if g.recording = false ∧ g.lastT ≤ t then
      some { recording := true, lastT := t, acc := g.acc }
    else none
  | .tick t =>
    if g.recording = true ∧ g.lastT ≤ t then
      some { recording := true, lastT := t, acc := g.acc + (t - g.lastT) }
    else none
  | _ => none

/-- Run the ghost accounting over a list of events. -/
def runGhost (g : GS) : List Ev → Option GS
  | [] => some g
  | e :: es =>
    match gstep g e with
    | some g1 => runGhost g1 es
    | none => none

/-- Invariant of non-re-entrant executions: a held recorder implies the
Recording flag is published, a published pause implies a held recorder, the
live-interval list is empty exactly when the handle is null and otherwise
holds exactly the handled id, and the handle is set exactly while the
recorder is in state `recording`. -/
def NRInv (s : Svc) : Prop :=
  (s.mediaRecorder ≠ none → s.isRecording = true) ∧
  (s.isPaused = true → s.mediaRecorder ≠ none) ∧
  (s.durationTimer = none → s.activeTimers = []) ∧
  (∀ id, s.durationTimer = some id → s.activeTimers = [id]) ∧
  (s.durationTimer ≠ none ↔ s.mediaRecorder = some MRState.recording)

/-- Coupling between the service state and the ghost accounting: the code's
rebased `startTime` always equals the time of the last event minus the
milliseconds spent Recording so far, and the ghost phase matches the
recorder. -/
def Couple (s : Svc) (g : GS) : Prop :=
  s.startTime = g.lastT - g.acc ∧
  (g.recording = true → s.mediaRecorder = some MRState.recording) ∧
  (g.recording = false → s.mediaRecorder = some MRState.paused ∧ s.pausedTime = g.lastT)


/-! ### Helper lemmas -/

theorem intStr_natCast (k : Nat) : intStr (k : Int) = natStr k := by
  unfold intStr
  rw [if_neg (Int.not_lt.mpr (Int.natCast_nonneg k))]
  simp [Int.toNat_ofNat]

theorem mod3600_div60 (n : Nat) : n % 3600 / 60 = n / 60 % 60 := by
  have h := Nat.mod_mul_right_div_self n 60 60
  norm_num at h
  exact h

/-! ### C8 -/

/-- C8: for every non-negative integer `s`, `formatDuration s` is zero-padded
`HH:MM:SS` when the hour component is nonzero and zero-padded `MM:SS`
otherwise (stated as agreement with `specFormatDuration`, the formatter the
specification describes), with the four quoted example values. -/
theorem c8_formatDuration_spec :
    (∀ s : Int, 0 ≤ s → formatDuration s = specFormatDuration s.toNat) ∧
    formatDuration 0 = "00:00" ∧ formatDuration 59 = "00:59" ∧
    formatDuration 60 = "01:00" ∧ formatDuration 3661 = "01:01:01" := by
  refine ⟨?_, by decide, by decide, by decide, by decide⟩
  intro s hs
  obtain ⟨n, rfl⟩ := Int.eq_ofNat_of_zero_le hs
  simp only [formatDuration, specFormatDuration, Int.toNat_ofNat]
  rw [Int.fdiv_eq_ediv _ (by norm_num), Int.tmod_eq_emod (by exact_mod_cast Nat.zero_le n) (by norm_num),
    Int.tmod_eq_emod (by exact_mod_cast Nat.zero_le n) (by norm_num)]
  have h1 : ((n : Int)) / 3600 = ((n / 3600 : Nat) : Int) := by norm_cast
  have h2 : ((n : Int)) % 3600 = ((n % 3600 : Nat) : Int) := by norm_cast
  have h3 : ((n : Int)) % 60 = ((n % 60 : Nat) : Int) := by norm_cast
  rw [h1, h2, h3, Int.fdiv_eq_ediv _ (by norm_num)]
  have h4 : (((n % 3600 : Nat)) : Int) / 60 = ((n % 3600 / 60 : Nat) : Int) := by norm_cast
  rw [h4, mod3600_div60]
  by_cases hc : n / 3600 = 0
  · rw [if_neg, if_neg]
    · rw [intStr_natCast, intStr_natCast]
    · exact fun h => h hc
    · rw [hc]; decide
  · rw [if_pos, if_pos]
    · rw [intStr_natCast, intStr_natCast, intStr_natCast]
    · exact hc
    · exact_mod_cast Nat.pos_of_ne_zero hc

/-- C8 witness: the general part of `c8_formatDuration_spec` applied at 3661. -/
theorem c8_formatDuration_spec_witness :
    (0 : Int) ≤ 3661 ∧ formatDuration 3661 = specFormatDuration (3661 : Int).toNat :=
  ⟨by decide, c8_formatDuration_spec.1 3661 (by decide)⟩

theorem tmod_self_of_neg {a b : Int} (hb : 0 < b) (h1 : -b < a) (h2 : a < 0) :
    Int.tmod a b = a := by
  match a, b with
  | Int.ofNat m, _ => exact absurd h2 (Int.not_lt.mpr (Int.natCast_nonneg m))
  | Int.negSucc m, Int.ofNat k =>
    show -Int.ofNat (Nat.succ m % k) = _
    have hofk : Int.ofNat k = (k : Int) := rfl
    rw [Int.negSucc_eq] at h1 h2 ⊢
    rw [hofk] at h1 hb
    have hk : m + 1 < k := by omega
    rw [Nat.mod_eq_of_lt hk]
    have : Int.ofNat (Nat.succ m) = ((m : Int) + 1) := by
      show ((Nat.succ m : Nat) : Int) = (m : Int) + 1
      push_cast
      ring
    rw [this]
  | Int.negSucc m, Int.negSucc k =>
    exact absurd hb (Int.not_lt.mpr (Int.le_of_lt (Int.negSucc_lt_zero k)))

theorem natChars_ne_nil (fuel n : Nat) (h : fuel ≠ 0) : natChars fuel n ≠ [] := by
  cases fuel with
  | zero => exact absurd rfl h
  | succ f =>
    unfold natChars
    split <;> simp

theorem natStr_data_length_pos (n : Nat) : 0 < (natStr n).data.length := by
  unfold natStr
  have h := natChars_ne_nil (n + 1) n (by omega)
  cases hc : natChars (n + 1) n with
  | nil => exact absurd hc h
  | cons a l => simp

/-- C10: `formatDuration` is total over `Int`; for `-3600 < s < 0` it takes
the `MM:SS` branch with a negative minutes field, producing a string that
starts with a minus sign rather than a zero-padded digit, e.g.
`formatDuration (-5) = "-1:-5"`. -/
theorem c10_formatDuration_negative :
    (∀ s : Int, -3600 < s → s < 0 →
      formatDuration s =
        padStart (intStr (Int.fdiv s 60)) 2 '0' ++ ":" ++
          padStart (intStr (Int.tmod s 60)) 2 '0' ∧
      Int.fdiv s 60 < 0 ∧
      (formatDuration s).data.head? = some '-') ∧
    formatDuration (-5) = "-1:-5" := by
  refine ⟨?_, by decide⟩
  intro s h1 h2
  have hmod : Int.tmod s 3600 = s := tmod_self_of_neg (by norm_num) (by omega) h2
  have hdiv : Int.fdiv s 3600 = s / 3600 := Int.fdiv_eq_ediv s (by norm_num)
  have hdz : s / 3600 = -1 := by omega
  have hmneg : Int.fdiv s 60 < 0 := by
    rw [Int.fdiv_eq_ediv s (by norm_num)]
    omega
  have hcond : ¬ (Int.fdiv s 3600 > 0) := by
    rw [hdiv, hdz]
    decide
  have hbranch : formatDuration s =
      padStart (intStr (Int.fdiv s 60)) 2 '0' ++ ":" ++
        padStart (intStr (Int.tmod s 60)) 2 '0' := by
    simp only [formatDuration, hmod]
    rw [if_neg hcond]
  refine ⟨hbranch, hmneg, ?_⟩
  rw [hbranch]
  have hstr : intStr (Int.fdiv s 60) = "-" ++ natStr (Int.fdiv s 60).natAbs := by
    unfold intStr
    rw [if_pos hmneg]
  have hlen : 2 ≤ (intStr (Int.fdiv s 60)).length := by
    rw [hstr]
    show 2 ≤ (['-'] ++ (natStr (Int.fdiv s 60).natAbs).data).length
    have hpos := natStr_data_length_pos (Int.fdiv s 60).natAbs
    simp only [List.length_append, List.length_cons, List.length_nil]
    omega
  have hpad : padStart (intStr (Int.fdiv s 60)) 2 '0' = intStr (Int.fdiv s 60) := by
    unfold padStart
    rw [Nat.sub_eq_zero_of_le hlen]
    apply String.ext
    rw [String.data_append]
    simp [List.replicate]
  rw [hpad, hstr]
  rw [String.data_append, String.data_append, String.data_append]
  simp

/-- C10 witness: the general part applied at `-5`. -/
theorem c10_formatDuration_negative_witness :
    formatDuration (-5) =
        padStart (intStr (Int.fdiv (-5) 60)) 2 '0' ++ ":" ++
          padStart (intStr (Int.tmod (-5) 60)) 2 '0' ∧
      Int.fdiv (-5) 60 < 0 ∧
      (formatDuration (-5)).data.head? = some '-' :=
  c10_formatDuration_negative.1 (-5) (by decide) (by decide)

/-- C6: calling `pauseRecording` when the recorder's `state` is not
`"recording"`, or `resumeRecording` when it is not `"paused"`, is a guarded
no-op: the state is returned unchanged, and no fault is raised (the
transformers are total). -/
theorem c6_invalid_transition_noop :
    ∀ (s : Svc) (t : Int),
      (recState s ≠ some "recording" → pauseRecording t s = s) ∧
      (recState s ≠ some "paused" → resumeRecording t s = s) := by
  intro s t
  constructor
  · intro h
    unfold pauseRecording
    rw [if_neg h]
  · intro h
    unfold resumeRecording
    rw [if_neg h]

/-- C6 witness: both no-ops at the Idle initial state (recorder field null). -/
theorem c6_invalid_transition_noop_witness :
    pauseRecording 0 initSvc = initSvc ∧ resumeRecording 0 initSvc = initSvc :=
  ⟨(c6_invalid_transition_noop initSvc 0).1 (by decide),
   (c6_invalid_transition_noop initSvc 0).2 (by decide)⟩

/-- C7: the video track's `ended` handler behaves identically to an explicit
`stopRecording` call — the handler body is exactly `this.stopRecording()` —
and from Recording or Paused it drives the terminal effects: the recorder is
told to stop (entering its finalizing phase) and the ticker handle is
cancelled. -/
theorem c7_track_ended_equiv_stop :
    (∀ s : Svc, step s Ev.ended = step s Ev.stop) ∧
    (∀ s : Svc,
      s.mediaRecorder = some MRState.recording ∨ s.mediaRecorder = some MRState.paused →
      (step s Ev.ended).mediaRecorder = some MRState.stopping ∧
      (step s Ev.ended).durationTimer = none) := by
  constructor
  · intro s
    rfl
  · intro s h
    show (stopRecording s).mediaRecorder = some MRState.stopping ∧
      (stopRecording s).durationTimer = none
    unfold stopRecording
    rcases h with h | h <;>
      rw [h] <;>
      simp only [MRState.attr] <;>
      rw [if_pos (by decide)] <;>
      unfold stopDurationTimer <;>
      cases hd : s.durationTimer <;>
      simp [hd]

/-- C7 witness: device revocation right after a successful start. -/
theorem c7_track_ended_equiv_stop_witness :
    (step (step initSvc (Ev.startOk 0)) Ev.ended).mediaRecorder = some MRState.stopping ∧
    (step (step initSvc (Ev.startOk 0)) Ev.ended).durationTimer = none :=
  c7_track_ended_equiv_stop.2 (step initSvc (Ev.startOk 0)) (Or.inl (by decide))

/-- C1 counterexample: when `getDisplayMedia` succeeds but the
`MediaRecorder` constructor throws, the failed `startRecording` leaves the
acquired stream retained with live tracks — the claim that "the stream and
recorder fields are null" and "any capture tracks acquired before the failure
are released" after every failed start is false. -/
theorem c1_counterexample :
    Reach (step initSvc Ev.startCtorFail) ∧
    (step initSvc Ev.startCtorFail).error = some startErrorMsg ∧
    (step initSvc Ev.startCtorFail).isRecording = false ∧
    (step initSvc Ev.startCtorFail).stream = some true := by
  refine ⟨Reach.step Reach.init (by decide), by decide, by decide, by decide⟩

/-- C1 as amended: after a failed `startRecording` the error signal is set to
the localized message and the published fields are at Idle defaults; when the
capture acquisition itself throws, the stream and recorder fields are left
untouched (so from Idle they stay null and nothing is retained), but when the
recorder constructor throws after acquisition succeeded, the acquired live
stream is retained in the stream field and its tracks are not released. -/
theorem c1_failed_start_amended :
    (∀ s : Svc, step s Ev.startAcqFail =
      { s with isRecording := false, isPaused := false, duration := 0,
               error := some startErrorMsg }) ∧
    (∀ s : Svc, step s Ev.startCtorFail =
      { s with stream := some true, isRecording := false, isPaused := false,
               duration := 0, error := some startErrorMsg }) ∧
    (step initSvc Ev.startAcqFail).stream = none ∧
    (step initSvc Ev.startAcqFail).mediaRecorder = none ∧
    (step initSvc Ev.startAcqFail).activeTimers = [] ∧
    (step initSvc Ev.startCtorFail).stream = some true := by
  refine ⟨fun s => rfl, fun s => rfl, by decide, by decide, by decide, by decide⟩

/-- C2 counterexample: calling `startRecording` (successfully) while already
Recording allocates a second interval without cancelling the first —
`startDurationTimer` merely overwrites the handle — so a reachable state has
two live tickers, refuting "at most one ticker is active in every reachable
state". -/
theorem c2_counterexample :
    Reach (runSvc initSvc [Ev.startOk 0, Ev.startOk 5]) ∧
    (runSvc initSvc [Ev.startOk 0, Ev.startOk 5]).activeTimers.length = 2 := by
  constructor
  · show Reach (step (step initSvc (Ev.startOk 0)) (Ev.startOk 5))
    exact Reach.step (Reach.step Reach.init (by decide)) (by decide)
  · decide

/-- C5 counterexample: after a successful start followed by a failed
re-entrant start, the old recorder still emits while the published
`isRecording` is false, and its chunk is appended — refuting "the chunk
buffer is appended to only while status == Recording". -/
theorem c5_counterexample :
    Reach (runSvc initSvc [Ev.startOk 0, Ev.startAcqFail]) ∧
    validB (runSvc initSvc [Ev.startOk 0, Ev.startAcqFail]) (Ev.dataAvail [7]) = true ∧
    (runSvc initSvc [Ev.startOk 0, Ev.startAcqFail]).isRecording = false ∧
    (step (runSvc initSvc [Ev.startOk 0, Ev.startAcqFail]) (Ev.dataAvail [7])).recordedChunks =
      (runSvc initSvc [Ev.startOk 0, Ev.startAcqFail]).recordedChunks ++ [[7]] := by
  refine ⟨?_, by decide, by decide, by decide⟩
  show Reach (step (step initSvc (Ev.startOk 0)) Ev.startAcqFail)
  exact Reach.step (Reach.step Reach.init (by decide)) (by decide)

/-- C9 counterexample: a successful start, a failed re-entrant start and a
pause reach a state with `isPaused = true` and `isRecording = false`,
refuting the invariant as claimed over all operation sequences. -/
theorem c9_counterexample :
    Reach (runSvc initSvc [Ev.startOk 0, Ev.startAcqFail, Ev.pause 2]) ∧
    (runSvc initSvc [Ev.startOk 0, Ev.startAcqFail, Ev.pause 2]).isPaused = true ∧
    (runSvc initSvc [Ev.startOk 0, Ev.startAcqFail, Ev.pause 2]).isRecording = false := by
  refine ⟨?_, by decide, by decide⟩
  show Reach (step (step (step initSvc (Ev.startOk 0)) Ev.startAcqFail) (Ev.pause 2))
  exact Reach.step (Reach.step (Reach.step Reach.init (by decide)) (by decide)) (by decide)

/-- The guard of `pauseRecording` pins the recorder field. -/
theorem recorder_of_recState_recording {s : Svc} (h : recState s = some "recording") :
    s.mediaRecorder = some MRState.recording := by
  unfold recState at h
  cases hm : s.mediaRecorder with
  | none => rw [hm] at h; cases h
  | some r =>
    rw [hm] at h
    cases r with
    | recording => rfl
    | paused => exact absurd h (by decide)
    | stopping => exact absurd h (by decide)

/-- The guard of `resumeRecording` pins the recorder field. -/
theorem recorder_of_recState_paused {s : Svc} (h : recState s = some "paused") :
    s.mediaRecorder = some MRState.paused := by
  unfold recState at h
  cases hm : s.mediaRecorder with
  | none => rw [hm] at h; cases h
  | some r =>
    rw [hm] at h
    cases r with
    | recording => exact absurd h (by decide)
    | paused => rfl
    | stopping => exact absurd h (by decide)

theorem sdt_mediaRecorder (s : Svc) : (stopDurationTimer s).mediaRecorder = s.mediaRecorder := by
  unfold stopDurationTimer
  cases s.durationTimer <;> rfl

theorem sdt_isRecording (s : Svc) : (stopDurationTimer s).isRecording = s.isRecording := by
  unfold stopDurationTimer
  cases s.durationTimer <;> rfl

theorem sdt_isPaused (s : Svc) : (stopDurationTimer s).isPaused = s.isPaused := by
  unfold stopDurationTimer
  cases s.durationTimer <;> rfl

theorem sdt_durationTimer (s : Svc) : (stopDurationTimer s).durationTimer = none := by
  unfold stopDurationTimer
  cases hd : s.durationTimer with
  | none => exact hd
  | some id => rfl

/-- Under the timer half of the invariant, clearing the handle empties the
live-interval list. -/
theorem sdt_activeTimers {s : Svc}
    (h3 : s.durationTimer = none → s.activeTimers = [])
    (h4 : ∀ id, s.durationTimer = some id → s.activeTimers = [id]) :
    (stopDurationTimer s).activeTimers = [] := by
  unfold stopDurationTimer
  cases hd : s.durationTimer with
  | none => simpa using h3 hd
  | some id => simp [h4 id hd]

theorem nrInv_init : NRInv initSvc := by
  unfold NRInv
  refine ⟨?_, ?_, ?_, ?_, ?_⟩ <;> simp [initSvc]

/-- Preservation of the invariant through `stopDurationTimer` once the
wrapped state no longer holds a `recording` recorder. -/
theorem nrInv_sdt {X : Svc} (hA : X.mediaRecorder ≠ none → X.isRecording = true)
    (hB : X.isPaused = true → X.mediaRecorder ≠ none)
    (h3 : X.durationTimer = none → X.activeTimers = [])
    (h4 : ∀ id, X.durationTimer = some id → X.activeTimers = [id])
    (hnm : X.mediaRecorder ≠ some MRState.recording) :
    NRInv (stopDurationTimer X) := by
  unfold NRInv
  rw [sdt_mediaRecorder, sdt_isRecording, sdt_isPaused, sdt_durationTimer]
  refine ⟨hA, hB, fun _ => sdt_activeTimers h3 h4, ?_, ?_⟩
  · intro id hid
    cases hid
  · constructor
    · intro h
      exact absurd rfl h
    · intro h
      exact absurd h hnm

theorem nrInv_stopRecording {s : Svc} (hinv : NRInv s) : NRInv (stopRecording s) := by
  obtain ⟨h1, h2, h3, h4, h5⟩ := hinv
  unfold stopRecording
  cases hm : s.mediaRecorder with
  | none => exact ⟨h1, h2, h3, h4, h5⟩
  | some r =>
    show NRInv (if r.attr ≠ "inactive" then
      stopDurationTimer { s with mediaRecorder := some MRState.stopping } else s)
    by_cases ha : r.attr ≠ "inactive"
    · rw [if_pos ha]
      have hrec' : s.mediaRecorder ≠ none := by rw [hm]; simp
      refine nrInv_sdt ?_ ?_ ?_ ?_ ?_
      · intro _
        exact h1 hrec'
      · intro _
        simp
      · exact h3
      · exact h4
      · simp
    · rw [if_neg ha]
      exact ⟨h1, h2, h3, h4, h5⟩

theorem nrInv_step {s : Svc} {e : Ev} (hinv : NRInv s) (hv : validNRB s e = true) :
    NRInv (step s e) := by
  obtain ⟨h1, h2, h3, h4, h5⟩ := hinv
  cases e with
  | startOk t =>
    have hrec : s.mediaRecorder = none := by
      simp [validNRB, validB] at hv
      exact hv
    have htimer : s.durationTimer = none := by
      by_contra hne
      rw [h5.mp hne] at hrec
      cases hrec
    have hat : s.activeTimers = [] := h3 htimer
    show NRInv (startRecordingOk t s)
    unfold NRInv startRecordingOk startDurationTimer
    refine ⟨?_, ?_, ?_, ?_, ?_⟩
    · intro _
      rfl
    · intro h
      simp at h
    · intro h
      simp at h
    · intro id hid
      simp only [Option.some.injEq] at hid
      simp [hat, hid]
    · simp
  | startAcqFail =>
    have hrec : s.mediaRecorder = none := by
      simp [validNRB, validB] at hv
      exact hv
    have htimer : s.durationTimer = none := by
      by_contra hne
      rw [h5.mp hne] at hrec
      cases hrec
    show NRInv (startRecordingAcqFail s)
    unfold NRInv startRecordingAcqFail
    refine ⟨?_, ?_, ?_, ?_, ?_⟩
    · intro h
      simp [hrec] at h
    · intro h
      simp at h
    · intro h
      exact h3 h
    · intro id hid
      exact h4 id hid
    · simp [hrec, htimer]
  | startCtorFail =>
    have hrec : s.mediaRecorder = none := by
      simp [validNRB, validB] at hv
      exact hv
    have htimer : s.durationTimer = none := by
      by_contra hne
      rw [h5.mp hne] at hrec
      cases hrec
    show NRInv (startRecordingCtorFail s)
    unfold NRInv startRecordingCtorFail
    refine ⟨?_, ?_, ?_, ?_, ?_⟩
    · intro h
      simp [hrec] at h
    · intro h
      simp at h
    · intro h
      exact h3 h
    · intro id hid
      exact h4 id hid
    · simp [hrec, htimer]
  | pause t =>
    show NRInv (pauseRecording t s)
    unfold pauseRecording
    by_cases hg : recState s = some "recording"
    · rw [if_pos hg]
      have hrec := recorder_of_recState_recording hg
      have hrec' : s.mediaRecorder ≠ none := by rw [hrec]; simp
      have heq : { stopDurationTimer
            { s with mediaRecorder := some MRState.paused, pausedTime := t } with
            isPaused := true } =
          stopDurationTimer
            { s with
              mediaRecorder := some MRState.paused
              pausedTime := t
              isPaused := true } := by
        unfold stopDurationTimer
        cases s.durationTimer <;> rfl
      rw [heq]
      refine nrInv_sdt ?_ ?_ ?_ ?_ ?_
      · intro _
        exact h1 hrec'
      · intro _
        simp
      · exact h3
      · exact h4
      · simp
    · rw [if_neg hg]
      exact ⟨h1, h2, h3, h4, h5⟩
  | resume t =>
    show NRInv (resumeRecording t s)
    unfold resumeRecording
    by_cases hg : recState s = some "paused"
    · rw [if_pos hg]
      have hrec := recorder_of_recState_paused hg
      have hrec' : s.mediaRecorder ≠ none := by rw [hrec]; simp
      have htimer : s.durationTimer = none := by
        by_contra hne
        rw [h5.mp hne] at hrec
        cases hrec
      have hat : s.activeTimers = [] := h3 htimer
      unfold NRInv startDurationTimer
      refine ⟨?_, ?_, ?_, ?_, ?_⟩
      · intro _
        exact h1 hrec'
      · intro h
        simp at h
      · intro h
        simp at h
      · intro id hid
        simp only [Option.some.injEq] at hid
        simp [hat, hid]
      · simp
    · rw [if_neg hg]
      exact ⟨h1, h2, h3, h4, h5⟩
  | stop => exact nrInv_stopRecording ⟨h1, h2, h3, h4, h5⟩
  | dataAvail bytes =>
    show NRInv (onDataAvailable bytes s)
    unfold onDataAvailable
    split
    · exact ⟨h1, h2, h3, h4, h5⟩
    · exact ⟨h1, h2, h3, h4, h5⟩
  | recStop d =>
    show NRInv (cleanup s)
    unfold cleanup
    have heq : { stopDurationTimer
          { s with stream := none, mediaRecorder := none, recordedChunks := [] } with
          isRecording := false, isPaused := false, duration := 0, error := none } =
        stopDurationTimer
          { s with
            stream := none
            mediaRecorder := none
            recordedChunks := []
            isRecording := false
            isPaused := false
            duration := 0
            error := none } := by
      unfold stopDurationTimer
      cases s.durationTimer <;> rfl
    rw [heq]
    refine nrInv_sdt ?_ ?_ ?_ ?_ ?_
    · intro h
      exact absurd rfl h
    · intro h
      simp at h
    · exact h3
    · exact h4
    · simp
  | ended => exact nrInv_stopRecording ⟨h1, h2, h3, h4, h5⟩
  | tick t =>
    show NRInv (onTick t s)
    exact ⟨h1, h2, h3, h4, h5⟩

theorem nrInv_reach {s : Svc} (h : ReachNR s) : NRInv s := by
  induction h with
  | init => exact nrInv_init
  | step hr hv ih => exact nrInv_step ih hv

/-- C2 as amended: the ticker is explicitly cancelled (`clearInterval`) by
`pauseRecording` and `stopRecording` whenever they act, so in every state
reachable without re-entrant `startRecording` calls at most one interval is
live; the original claim fails only because `startRecording` overwrites the
handle without cancelling (see the counterexample). -/
theorem c2_single_ticker_amended :
    (∀ s : Svc, ReachNR s → s.activeTimers.length ≤ 1) ∧
    (∀ (s : Svc) (t : Int),
      (pauseRecording t s).durationTimer = none ∨ pauseRecording t s = s) ∧
    (∀ s : Svc, (stopRecording s).durationTimer = none ∨ stopRecording s = s) := by
  refine ⟨?_, ?_, ?_⟩
  · intro s hs
    obtain ⟨h1, h2, h3, h4, h5⟩ := nrInv_reach hs
    cases hd : s.durationTimer with
    | none => simp [h3 hd]
    | some id => simp [h4 id hd]
  · intro s t
    unfold pauseRecording
    by_cases hg : recState s = some "recording"
    · left
      rw [if_pos hg]
      show (stopDurationTimer _).durationTimer = none
      exact sdt_durationTimer _
    · right
      rw [if_neg hg]
  · intro s
    unfold stopRecording
    cases hm : s.mediaRecorder with
    | none => right; rfl
    | some r =>
      show (if r.attr ≠ "inactive" then
          stopDurationTimer { s with mediaRecorder := some MRState.stopping }
          else s).durationTimer = none ∨
        (if r.attr ≠ "inactive" then
          stopDurationTimer { s with mediaRecorder := some MRState.stopping }
          else s) = s
      by_cases ha : r.attr ≠ "inactive"
      · left
        rw [if_pos ha]
        exact sdt_durationTimer _
      · right
        rw [if_neg ha]

/-- C2 witness: one live ticker right after a successful start. -/
theorem c2_single_ticker_amended_witness :
    (runSvc initSvc [Ev.startOk 0]).activeTimers.length ≤ 1 :=
  c2_single_ticker_amended.1 _ (ReachNR.step (e := Ev.startOk 0) ReachNR.init (by decide))

/-- C5 as amended: every non-empty emitted segment is appended at the end of
the chunk buffer (order preserved, nothing dropped or deduplicated), a
zero-size segment is skipped, and in every state reachable without
re-entrant `startRecording` calls a deliverable `dataavailable` event finds
`isRecording = true`; the "only while status == Recording" part fails for
re-entrant sequences (see the counterexample). -/
theorem c5_chunk_append_amended :
    (∀ (s : Svc) (bytes : List Nat), bytes ≠ [] →
      (onDataAvailable bytes s).recordedChunks = s.recordedChunks ++ [bytes]) ∧
    (∀ s : Svc, onDataAvailable [] s = s) ∧
    (∀ (s : Svc) (bytes : List Nat), ReachNR s →
      validB s (Ev.dataAvail bytes) = true → s.isRecording = true) := by
  refine ⟨?_, ?_, ?_⟩
  · intro s bytes hb
    unfold onDataAvailable
    rw [if_pos]
    simpa using List.length_pos.mpr hb
  · intro s
    rfl
  · intro s bytes hs hv
    obtain ⟨h1, h2, h3, h4, h5⟩ := nrInv_reach hs
    simp [validB] at hv
    apply h1
    rcases hv with hv | hv <;> rw [hv] <;> simp

/-- C5 witness: a non-empty chunk appends, and after a successful start a
`dataavailable` event is deliverable with `isRecording = true`. -/
theorem c5_chunk_append_amended_witness :
    (onDataAvailable [7] initSvc).recordedChunks = initSvc.recordedChunks ++ [[7]] ∧
    (runSvc initSvc [Ev.startOk 0]).isRecording = true :=
  ⟨c5_chunk_append_amended.1 initSvc [7] (by decide),
   c5_chunk_append_amended.2.2 _ [7] (ReachNR.step (e := Ev.startOk 0) ReachNR.init (by decide)) (by decide)⟩

/-- C9 as amended: in every state reachable without re-entrant
`startRecording` calls, `isPaused = true` implies `isRecording = true`; the
unrestricted claim fails (see the counterexample). -/
theorem c9_paused_implies_recording_amended :
    ∀ s : Svc, ReachNR s → s.isPaused = true → s.isRecording = true := by
  intro s hs hp
  obtain ⟨h1, h2, h3, h4, h5⟩ := nrInv_reach hs
  exact h1 (h2 hp)

/-- C9 witness: the paused state after start-then-pause satisfies both flags. -/
theorem c9_paused_implies_recording_amended_witness :
    (runSvc initSvc [Ev.startOk 0, Ev.pause 1]).isPaused = true ∧
    (runSvc initSvc [Ev.startOk 0, Ev.pause 1]).isRecording = true :=
  ⟨by decide,
   c9_paused_implies_recording_amended _
     (ReachNR.step (e := Ev.pause 1)
       (ReachNR.step (e := Ev.startOk 0) ReachNR.init (by decide)) (by decide)) (by decide)⟩

theorem sdt_startTime (s : Svc) : (stopDurationTimer s).startTime = s.startTime := by
  unfold stopDurationTimer
  cases s.durationTimer <;> rfl

theorem sdt_pausedTime (s : Svc) : (stopDurationTimer s).pausedTime = s.pausedTime := by
  unfold stopDurationTimer
  cases s.durationTimer <;> rfl

theorem runGhost_cons (g : GS) (e : Ev) (es : List Ev) :
    runGhost g (e :: es) =
      match gstep g e with
      | some g1 => runGhost g1 es
      | none => none := rfl

theorem couple_gstep {s : Svc} {g : GS} {e : Ev} {g' : GS}
    (hc : Couple s g) (hg : gstep g e = some g') : Couple (step s e) g' := by
  obtain ⟨hst, hrec, hpau⟩ := hc
  cases e with
  | startOk t => exact Option.noConfusion (show (none : Option GS) = some g' from hg)
  | startAcqFail => exact Option.noConfusion (show (none : Option GS) = some g' from hg)
  | startCtorFail => exact Option.noConfusion (show (none : Option GS) = some g' from hg)
  | stop => exact Option.noConfusion (show (none : Option GS) = some g' from hg)
  | dataAvail bytes => exact Option.noConfusion (show (none : Option GS) = some g' from hg)
  | recStop d => exact Option.noConfusion (show (none : Option GS) = some g' from hg)
  | ended => exact Option.noConfusion (show (none : Option GS) = some g' from hg)
  | pause t =>
    have hg1 : (if g.recording = true ∧ g.lastT ≤ t then
        some { recording := false, lastT := t, acc := g.acc + (t - g.lastT) }
        else none) = some g' := hg
    split at hg1
    case isFalse => cases hg1
    case isTrue h =>
      rw [Option.some.injEq] at hg1
      subst hg1
      have hmr := hrec h.1
      have hguard : recState s = some "recording" := by
        simp [recState, hmr, MRState.attr]
      show Couple (pauseRecording t s) _
      unfold pauseRecording
      rw [if_pos hguard]
      refine ⟨?_, ?_, ?_⟩
      · show (stopDurationTimer
          { s with mediaRecorder := some MRState.paused, pausedTime := t }).startTime = _
        rw [sdt_startTime]
        show s.startTime = t - (g.acc + (t - g.lastT))
        rw [hst]
        ring
      · intro hfalse
        cases hfalse
      · intro _
        constructor
        · show (stopDurationTimer
            { s with mediaRecorder := some MRState.paused, pausedTime := t }).mediaRecorder = _
          rw [sdt_mediaRecorder]
        · show (stopDurationTimer
            { s with mediaRecorder := some MRState.paused, pausedTime := t }).pausedTime = t
          rw [sdt_pausedTime]
  | resume t =>
    have hg1 : (if g.recording = false ∧ g.lastT ≤ t then
        some { recording := true, lastT := t, acc := g.acc }
        else none) = some g' := hg
    split at hg1
    case isFalse => cases hg1
    case isTrue h =>
      rw [Option.some.injEq] at hg1
      subst hg1
      obtain ⟨hmr, hpt⟩ := hpau h.1
      have hguard : recState s = some "paused" := by
        simp [recState, hmr, MRState.attr]
      show Couple (resumeRecording t s) _
      unfold resumeRecording
      rw [if_pos hguard]
      refine ⟨?_, ?_, ?_⟩
      · show s.startTime + (t - s.pausedTime) = t - g.acc
        rw [hst, hpt]
        ring
      · intro _
        rfl
      · intro hfalse
        cases hfalse
  | tick t =>
    have hg1 : (if g.recording = true ∧ g.lastT ≤ t then
        some { recording := true, lastT := t, acc := g.acc + (t - g.lastT) }
        else none) = some g' := hg
    split at hg1
    case isFalse => cases hg1
    case isTrue h =>
      rw [Option.some.injEq] at hg1
      subst hg1
      show Couple (onTick t s) _
      refine ⟨?_, ?_, ?_⟩
      · show s.startTime = t - (g.acc + (t - g.lastT))
        rw [hst]
        ring
      · intro _
        exact hrec h.1
      · intro hfalse
        exact Bool.noConfusion (show true = false from hfalse)

theorem couple_run {evs : List Ev} : ∀ {s : Svc} {g g' : GS},
    Couple s g → runGhost g evs = some g' → Couple (runSvc s evs) g' := by
  induction evs with
  | nil =>
    intro s g g' hc hg
    have hg1 : some g = some g' := hg
    rw [Option.some.injEq] at hg1
    subst hg1
    exact hc
  | cons e es ih =>
    intro s g g' hc hg
    rw [runGhost_cons] at hg
    cases he : gstep g e with
    | none => rw [he] at hg; cases hg
    | some g1 =>
      rw [he] at hg
      exact ih (couple_gstep hc he) hg

theorem runGhost_append (g : GS) (as bs : List Ev) :
    runGhost g (as ++ bs) = (runGhost g as).bind fun g1 => runGhost g1 bs := by
  induction as generalizing g with
  | nil => rfl
  | cons e es ih =>
    show runGhost g (e :: (es ++ bs)) = _
    rw [runGhost_cons, runGhost_cons]
    cases he : gstep g e with
    | none => rfl
    | some g1 =>
      show runGhost g1 (es ++ bs) = (runGhost g1 es).bind fun g2 => runGhost g2 bs
      exact ih g1

theorem runSvc_append (s : Svc) (as bs : List Ev) :
    runSvc s (as ++ bs) = runSvc (runSvc s as) bs := by
  induction as generalizing s with
  | nil => rfl
  | cons e es ih =>
    show runSvc (step s e) (es ++ bs) = _
    exact ih (step s e)

/-- C3: `resumeRecording` shifts `startTime` forward by exactly
`now − pausedTime`, and along every valid alternation of pause/resume/tick
events after a successful start, every tick publishes
`duration = floor((now − startTime)/1000) = floor(recordingMs/1000)` where
`recordingMs` (the ghost field `acc`) is the total wall-clock time spent
strictly in the Recording phase, excluding all Paused intervals. -/
theorem c3_duration_accounting :
    (∀ (s : Svc) (t : Int), recState s = some "paused" →
      (resumeRecording t s).startTime = s.startTime + (t - s.pausedTime)) ∧
    (∀ (t0 : Int) (evs : List Ev) (t : Int) (g : GS),
      runGhost { recording := true, lastT := t0, acc := 0 } (evs ++ [Ev.tick t]) = some g →
      (runSvc (step initSvc (Ev.startOk t0)) (evs ++ [Ev.tick t])).duration =
        Int.fdiv g.acc 1000) := by
  constructor
  · intro s t hguard
    unfold resumeRecording
    rw [if_pos hguard]
    rfl
  · intro t0 evs t g hg
    rw [runGhost_append] at hg
    cases h1 : runGhost { recording := true, lastT := t0, acc := 0 } evs with
    | none => rw [h1] at hg; cases hg
    | some g1 =>
      rw [h1] at hg
      have hc0 : Couple (step initSvc (Ev.startOk t0))
          { recording := true, lastT := t0, acc := 0 } := by
        refine ⟨?_, ?_, ?_⟩
        · show (t0 : Int) = t0 - 0
          ring
        · intro _
          rfl
        · intro hfalse
          cases hfalse
      have hc1 := couple_run hc0 h1
      have hg2 : runGhost g1 [Ev.tick t] = some g := hg
      rw [runGhost_cons] at hg2
      cases he : gstep g1 (Ev.tick t) with
      | none => rw [he] at hg2; cases hg2
      | some g2 =>
        rw [he] at hg2
        have hg3 : some g2 = some g := hg2
        rw [Option.some.injEq] at hg3
        subst hg3
        have he1 : (if g1.recording = true ∧ g1.lastT ≤ t then
            some { recording := true, lastT := t, acc := g1.acc + (t - g1.lastT) }
            else none) = some g2 := he
        split at he1
        case isFalse => cases he1
        case isTrue h =>
          rw [Option.some.injEq] at he1
          subst he1
          rw [runSvc_append]
          show (onTick t (runSvc (step initSvc (Ev.startOk t0)) evs)).duration = _
          show Int.fdiv (t - (runSvc (step initSvc (Ev.startOk t0)) evs).startTime) 1000 = _
          rw [hc1.1]
          have harith : t - (g1.lastT - g1.acc) = g1.acc + (t - g1.lastT) := by ring
          rw [harith]

/-- C3 witness: start at 0 ms, pause at 2500 ms, resume at 4000 ms, tick at
5500 ms: the published duration is `floor(4000/1000)`, and the resume shifted
`startTime` by `now − pausedTime`. -/
theorem c3_duration_accounting_witness :
    (runSvc (step initSvc (Ev.startOk 0))
        ([Ev.pause 2500, Ev.resume 4000] ++ [Ev.tick 5500])).duration =
      Int.fdiv (4000 : Int) 1000 ∧
    (resumeRecording 4000 (runSvc initSvc [Ev.startOk 0, Ev.pause 2500])).startTime =
      (runSvc initSvc [Ev.startOk 0, Ev.pause 2500]).startTime +
        (4000 - (runSvc initSvc [Ev.startOk 0, Ev.pause 2500]).pausedTime) :=
  ⟨c3_duration_accounting.2 0 [Ev.pause 2500, Ev.resume 4000] 5500
      { recording := true, lastT := 5500, acc := 4000 } (by decide),
   c3_duration_accounting.1 _ 4000 (by decide)⟩

theorem sdt_recordedChunks (s : Svc) :
    (stopDurationTimer s).recordedChunks = s.recordedChunks := by
  unfold stopDurationTimer
  cases s.durationTimer <;> rfl

theorem sdt_stream (s : Svc) : (stopDurationTimer s).stream = s.stream := by
  unfold stopDurationTimer
  cases s.durationTimer <;> rfl

theorem digitChar_ne_colon (d : Nat) : digitChar d ≠ ':' := by
  match d with
  | 0 | 1 | 2 | 3 | 4 | 5 | 6 | 7 | 8 | 9 => decide
  | n + 10 => exact (by decide : ('*' : Char) ≠ ':')

theorem natChars_no_colon (fuel : Nat) : ∀ n c, c ∈ natChars fuel n → c ≠ ':' := by
  induction fuel with
  | zero =>
    intro n c hc
    simp [natChars] at hc
  | succ f ih =>
    intro n c hc
    unfold natChars at hc
    split at hc
    · simp at hc
      rw [hc]
      exact digitChar_ne_colon n
    · rw [List.mem_append] at hc
      cases hc with
      | inl h => exact ih _ _ h
      | inr h =>
        simp at h
        rw [h]
        exact digitChar_ne_colon _

theorem natStr_no_colon (n : Nat) : ∀ c ∈ (natStr n).data, c ≠ ':' := by
  intro c hc
  exact natChars_no_colon (n + 1) n c hc

theorem padStart_natStr_no_colon (n k : Nat) :
    ∀ c ∈ (padStart (natStr n) k '0').data, c ≠ ':' := by
  intro c hc
  unfold padStart at hc
  rw [String.data_append] at hc
  rw [List.mem_append] at hc
  cases hc with
  | inl h =>
    have := List.eq_of_mem_replicate h
    rw [this]
    decide
  | inr h => exact natStr_no_colon n c h

theorem map_colonToDash_fix {l : List Char} (h : ∀ c ∈ l, c ≠ ':') :
    l.map colonToDash = l := by
  induction l with
  | nil => rfl
  | cons a l ih =>
    rw [List.map_cons]
    rw [ih fun c hc => h c (List.mem_cons_of_mem a hc)]
    unfold colonToDash
    rw [if_neg (h a (List.mem_cons_self a l))]

theorem replaceColonsDash_append (a b : String) :
    replaceColonsDash (a ++ b) = replaceColonsDash a ++ replaceColonsDash b := by
  apply String.ext
  show ((a ++ b).data.map colonToDash) = _
  rw [String.data_append, List.map_append]
  rfl

theorem replaceColonsDash_fix {s : String} (h : ∀ c ∈ s.data, c ≠ ':') :
    replaceColonsDash s = s := by
  apply String.ext
  exact map_colonToDash_fix h

/-- The download file name has the dashed `YYYY-MM-DDTHH-MM-SS` shape: the
colon separators of the ISO timestamp are replaced by dashes and no other
character is touched. -/
theorem downloadName_shape (d : DateTime) :
    downloadName d =
      "screen-recording-" ++ padStart (natStr d.year) 4 '0' ++ "-" ++
        padStart (natStr d.month) 2 '0' ++ "-" ++ padStart (natStr d.day) 2 '0' ++ "T" ++
        padStart (natStr d.hour) 2 '0' ++ "-" ++ padStart (natStr d.minute) 2 '0' ++ "-" ++
        padStart (natStr d.second) 2 '0' ++ ".webm" := by
  unfold downloadName isoSlice19
  rw [replaceColonsDash_append, replaceColonsDash_append, replaceColonsDash_append,
    replaceColonsDash_append, replaceColonsDash_append, replaceColonsDash_append,
    replaceColonsDash_append, replaceColonsDash_append, replaceColonsDash_append,
    replaceColonsDash_append]
  rw [replaceColonsDash_fix (padStart_natStr_no_colon d.year 4),
    replaceColonsDash_fix (padStart_natStr_no_colon d.month 2),
    replaceColonsDash_fix (padStart_natStr_no_colon d.day 2),
    replaceColonsDash_fix (padStart_natStr_no_colon d.hour 2),
    replaceColonsDash_fix (padStart_natStr_no_colon d.minute 2),
    replaceColonsDash_fix (padStart_natStr_no_colon d.second 2)]
  rw [show replaceColonsDash "-" = "-" from by decide,
    show replaceColonsDash "T" = "T" from by decide,
    show replaceColonsDash ":" = "-" from by decide]
  apply String.ext
  simp [String.data_append, List.append_assoc]

/-- C4: at the recorder's stop-completion event, a file is produced iff the
chunk buffer is non-empty; a produced file is exactly the concatenation of
the buffered chunks in emission order, has MIME type `video/webm` and is
named `screen-recording-<YYYY-MM-DDTHH-MM-SS>.webm` from the finalization
wall-clock time; with an empty buffer no file is produced (only the warning)
and the state still resets to Idle either way. -/
theorem c4_finalization :
    ∀ (s : Svc) (d : DateTime),
      ((finalize d s).1 = none ↔ s.recordedChunks = []) ∧
      (s.recordedChunks ≠ [] →
        (finalize d s).1 = some
          { bytes := s.recordedChunks.flatten
            mime := "video/webm"
            name := "screen-recording-" ++ padStart (natStr d.year) 4 '0' ++ "-" ++
              padStart (natStr d.month) 2 '0' ++ "-" ++ padStart (natStr d.day) 2 '0' ++
              "T" ++ padStart (natStr d.hour) 2 '0' ++ "-" ++
              padStart (natStr d.minute) 2 '0' ++ "-" ++
              padStart (natStr d.second) 2 '0' ++ ".webm" }) ∧
      (finalize d s).2.isRecording = false ∧
      (finalize d s).2.isPaused = false ∧
      (finalize d s).2.duration = 0 ∧
      (finalize d s).2.error = none ∧
      (finalize d s).2.recordedChunks = [] ∧
      (finalize d s).2.stream = none ∧
      (finalize d s).2.mediaRecorder = none := by
  intro s d
  refine ⟨?_, ?_, rfl, rfl, rfl, rfl, ?_, ?_, ?_⟩
  · show (downloadRecording d s = none ↔ s.recordedChunks = [])
    unfold downloadRecording
    by_cases hc : s.recordedChunks = []
    · rw [if_pos hc]
      simp [hc]
    · rw [if_neg hc]
      simp [hc]
  · intro hc
    show downloadRecording d s = _
    unfold downloadRecording
    rw [if_neg hc, downloadName_shape]
  · show (cleanup s).recordedChunks = []
    unfold cleanup
    show (stopDurationTimer
      { s with stream := none, mediaRecorder := none, recordedChunks := [] }).recordedChunks = []
    rw [sdt_recordedChunks]
  · show (cleanup s).stream = none
    unfold cleanup
    show (stopDurationTimer
      { s with stream := none, mediaRecorder := none, recordedChunks := [] }).stream = none
    rw [sdt_stream]
  · show (cleanup s).mediaRecorder = none
    unfold cleanup
    show (stopDurationTimer
      { s with stream := none, mediaRecorder := none, recordedChunks := [] }).mediaRecorder = none
    rw [sdt_mediaRecorder]

/-- C4 witness: three one-second chunks finalized on 2026-10-11 07:30:05 give
the concatenated file with the dashed timestamp name; the same export
evaluates to the literal file record. -/
theorem c4_finalization_witness :
    ({ initSvc with recordedChunks := [[1], [2], [3]] } : Svc).recordedChunks ≠ [] ∧
    (finalize ⟨2026, 10, 11, 7, 30, 5⟩
        { initSvc with recordedChunks := [[1], [2], [3]] }).1 =
      some
        { bytes := ({ initSvc with recordedChunks := [[1], [2], [3]] } : Svc).recordedChunks.flatten
          mime := "video/webm"
          name := "screen-recording-" ++ padStart (natStr 2026) 4 '0' ++ "-" ++
            padStart (natStr 10) 2 '0' ++ "-" ++ padStart (natStr 11) 2 '0' ++
            "T" ++ padStart (natStr 7) 2 '0' ++ "-" ++
            padStart (natStr 30) 2 '0' ++ "-" ++
            padStart (natStr 5) 2 '0' ++ ".webm" } ∧
    (finalize ⟨2026, 10, 11, 7, 30, 5⟩
        { initSvc with recordedChunks := [[1], [2], [3]] }).1 =
      some
        { bytes := [1, 2, 3]
          mime := "video/webm"
          name := "screen-recording-2026-10-11T07-30-05.webm" } :=
  ⟨by decide,
   (c4_finalization { initSvc with recordedChunks := [[1], [2], [3]] }
     ⟨2026, 10, 11, 7, 30, 5⟩).2.1 (by decide),
   by decide⟩
